import Mathlib

/-!
Verification development for the `debug_try` attribute crate
(`src/lib.rs`).  The crate rewrites every `?` try operator in a
function body into `expr.map_err(|err| { eprintln!(fmt, err); err })?`
and optionally descends into closures and nested items.

The development shallowly embeds the fragment of the `syn` abstract
syntax tree that the transformation inspects, the attribute-argument
model, and the visitor defined in `debug_try_inner`, and proves the
spec claims about them.
-/

/-- Line/column pair mirroring `proc_macro::LineColumn`, the value
returned by `Span::start()` in the host compiler.  Per the host API
documentation, `line` is the 1-indexed line and `column` is the
0-indexed column of the position. -/
structure LineColumn where
  line : Nat
  column : Nat
deriving DecidableEq, Repr

/-- Source span as used by the crate: the originating file path
(`span.unstable().source_file().path()`) together with the start
position (`span.unstable().start()`). -/
structure SpanData where
  file : String
  start : LineColumn
deriving DecidableEq, Repr

/-- Compile-time diagnostic: a source span plus a human-readable
message, mirroring `proc_macro::Diagnostic` as the crate constructs it
via `span.error(msg)`. -/
structure Diagnostic where
  span : SpanData
  msg : String
deriving DecidableEq, Repr

/-- Literal values appearing as attribute-argument values, mirroring
the `syn::Lit` cases the resolver distinguishes: `Lit::Bool` versus
everything else (represented here by string and integer literals). -/
inductive Lit where
  | boolL (value : Bool) (span : SpanData)
  | strL (s : String) (span : SpanData)
  | intL (n : Nat) (span : SpanData)
deriving DecidableEq, Repr

/-- Span of a literal, mirroring `nv.lit.span()`. -/
def Lit.span : Lit → SpanData
  | .boolL _ sp => sp
  | .strL _ sp => sp
  | .intL _ sp => sp

/-- Whether the literal is a boolean literal (`Lit::Bool`). -/
def Lit.isBool : Lit → Bool
  | .boolL _ _ => true
  | _ => false

/-- One attribute argument, mirroring `syn::NestedMeta` as matched by
`DebugTryArgs::try_from`: either a `Meta::NameValue` pair (ident with
its span, and a literal value) or any other shape (bare word, meta
list, bare literal), which the resolver rejects uniformly. -/
inductive NestedMeta where
  | nameValue (ident : String) (identSpan : SpanData) (lit : Lit)
  | other (span : SpanData)
deriving DecidableEq, Repr

/-- Options record produced by the resolver, mirroring `DebugTryArgs`:
a single optional boolean field `nested` (default `None`). -/
structure DebugTryArgs where
  nested : Option Bool := none
deriving DecidableEq, Repr

/-- Loop body of `DebugTryArgs::try_from`: fold over the argument list
threading the partial record, returning at the first invalid entry.
Mirrors the `for arg in args` loop in `src/lib.rs`. -/
def DebugTryArgs.try_from_go : List NestedMeta → DebugTryArgs →
    Except Diagnostic DebugTryArgs
  | [], result => .ok result
  | arg :: rest, result =>
    match arg with
    | .nameValue ident identSpan lit =>
      if ident = "nested" then
        if result.nested.isSome then
          .error ⟨identSpan, "Duplicate argument"⟩
        else
          match lit with
          | .boolL value _ =>
            DebugTryArgs.try_from_go rest { result with nested := some value }
          | _ => .error ⟨lit.span, "Expected boolean literal"⟩
      else .error ⟨identSpan, "Unknown argument"⟩
    | .other sp => .error ⟨sp, "Expected key-value pair"⟩

/-- The options resolver `DebugTryArgs::try_from`: starts from the
default record and folds over the arguments. -/
def DebugTryArgs.try_from (args : List NestedMeta) :
    Except Diagnostic DebugTryArgs :=
  DebugTryArgs.try_from_go args {}

/-!
Shallow embedding of the fragment of the `syn` abstract syntax tree
that `debug_try_inner` inspects.  Expressions keep the node kinds the
visitor distinguishes (`ExprTry`, `ExprClosure`, macro-like
invocations) plus representative recursive kinds (method calls, calls,
blocks) and leaves (paths, literals).  Argument lists and statement
lists are their own inductives so that all recursion is plainly
structural.
-/

mutual

/-- Expression nodes.  `tryE sp e` is `e?` with `sp` the span of the
question token; `closure b` is a closure with body `b`; `macE m` is a
macro-like invocation; the remaining kinds are ordinary recursive
expression forms. -/
inductive Expr where
  | tryE (qspan : SpanData) (e : Expr) : Expr
  | closure (body : Expr) : Expr
  | macE (m : Mac) : Expr
  | methodCall (receiver : Expr) (method : String) (args : ExprList) : Expr
  | call (f : Expr) (args : ExprList) : Expr
  | blockE (stmts : StmtList) : Expr
  | pathE (segs : List String) : Expr
  | strLit (s : String) : Expr
  | natLit (n : Nat) : Expr

/-- Comma-separated expression lists (call arguments, parsed macro
arguments). -/
inductive ExprList where
  | nil : ExprList
  | cons (e : Expr) (es : ExprList) : ExprList

/-- Macro-like invocation: leading-colon flag and segments of its
path, plus the raw argument token stream `tts`. -/
inductive Mac where
  | mk (leadingColon : Bool) (segs : List String) (tts : Toks) : Mac

/-- Raw token stream of a macro invocation, as seen through the only
operation the crate applies to it, `Punctuated::<Expr, Token![,]>::
parse_terminated`: either it parses as a comma-separated expression
list, or it fails with a span and a parser message. -/
inductive Toks where
  | exprList (es : ExprList) : Toks
  | malformed (span : SpanData) (msg : String) : Toks

/-- Statements: nested item, local binding (with or without
initializer), expression statement, or semicolon-terminated
expression statement. -/
inductive Stmt where
  | itemS (it : Item) : Stmt
  | localNone : Stmt
  | localInit (init : Expr) : Stmt
  | exprS (e : Expr) : Stmt
  | semiS (e : Expr) : Stmt

/-- Statement lists (function and block bodies). -/
inductive StmtList where
  | nil : StmtList
  | cons (s : Stmt) (ss : StmtList) : StmtList

/-- Items appearing as statements: a nested function with its body, or
any other item kind (which contains no statements to visit). -/
inductive Item where
  | fnI (body : StmtList) : Item
  | otherI : Item

end

/-- Function definition handed to the attribute, mirroring
`syn::ItemFn` restricted to the part the visitor touches: the body
statements. -/
structure ItemFn where
  body : StmtList

/-- The allow-list of recognized macro names, mirroring the constant
`KNOWN` in `visit_macro_mut`. -/
def KNOWN : List String := ["println", "eprintln", "format", "write", "writeln"]

/-- Mirrors `syn::Path::is_ident(name)`: the path has no leading colon
and consists of exactly one segment equal to `name`. -/
def is_ident (leadingColon : Bool) (segs : List String) (name : String) : Bool :=
  !leadingColon && segs == [name]

/-- Whether a macro path matches some allow-listed name, mirroring
`KNOWN.iter().any(|name| i.path.is_ident(name))`. -/
def known_mac (leadingColon : Bool) (segs : List String) : Bool :=
  KNOWN.any (fun name => is_ident leadingColon segs name)

/-- Mirrors `Punctuated::<Expr, Token![,]>::parse_terminated.parse2`
on the raw token stream: success yields the expression list, failure
yields the parse error (span and message). -/
def parse_terminated : Toks → Except (SpanData × String) ExprList
  | .exprList es => .ok es
  | .malformed sp msg => .error (sp, msg)

/-- Mirrors `tree.into_token_stream()`: re-serialize a parsed
expression list as the macro's token stream. -/
def into_token_stream (es : ExprList) : Toks := .exprList es

/-- The diagnostic format string built in `visit_expr_try_mut`:
`format!("Error propagated ({}:{}:{}): {}", file, line, column)`
where `line`/`column` come from `span.unstable().start()`, i.e. the
host compiler's `LineColumn` (1-indexed line, 0-indexed column). -/
def format_str (sp : SpanData) : String :=
  "Error propagated (" ++ sp.file ++ ":" ++ toString sp.start.line ++ ":"
    ++ toString sp.start.column ++ "): \x7b\x7d"

/-- The closure `|err| { eprintln!(fmt, err); err }` produced by the
`parse_quote!` template in `visit_expr_try_mut`. -/
def err_closure (fmt : String) : Expr :=
  .closure (.blockE
    (.cons (.semiS (.macE (.mk false ["eprintln"]
        (.exprList (.cons (.strLit fmt) (.cons (.pathE ["err"]) .nil))))))
      (.cons (.exprS (.pathE ["err"])) .nil)))

/-- The full replacement expression of `visit_expr_try_mut`:
`#expr.map_err(|err| { eprintln!(#format_str, err); err })`. -/
def wrap_expr (sp : SpanData) (e : Expr) : Expr :=
  .methodCall e "map_err" (.cons (err_closure (format_str sp)) .nil)

/-!
The visitor of `debug_try_inner` (`struct Visitor` implementing
`VisitMut`), as explicit mutually recursive functions.  The Rust
visitor mutates nodes in place and pushes diagnostics onto a vector;
here each function returns the rewritten node together with the list
of diagnostics it pushed, in traversal order.  Overridden methods
(`visit_expr_closure_mut`, `visit_expr_try_mut`, `visit_macro_mut`,
`visit_stmt_mut`) appear as the corresponding cases; all other cases
follow `syn`'s default traversal, which visits every child.
-/

mutual

/-- Dispatch of `visit_expr_mut` over expression kinds.  `tryE`
follows the overridden `visit_expr_try_mut`: visit the inner
expression first, then replace it by the `map_err` wrapping, keeping
the question token.  `closure` follows the overridden
`visit_expr_closure_mut`: descend only when `nested` resolves to
true.  `macE` reaches the overridden `visit_macro_mut`.  The rest is
the default traversal. -/
def visit_expr_mut (a : DebugTryArgs) : Expr → Expr × List Diagnostic
  | .tryE sp e =>
    let r := visit_expr_mut a e
    (.tryE sp (wrap_expr sp r.1), r.2)
  | .closure body =>
    if a.nested.getD false then
      let r := visit_expr_mut a body
      (.closure r.1, r.2)
    else
      (.closure body, [])
  | .macE m =>
    let r := visit_mac_mut a m
    (.macE r.1, r.2)
  | .methodCall receiver method args =>
    let r := visit_expr_mut a receiver
    let rs := visit_expr_list_mut a args
    (.methodCall r.1 method rs.1, r.2 ++ rs.2)
  | .call f args =>
    let r := visit_expr_mut a f
    let rs := visit_expr_list_mut a args
    (.call r.1 rs.1, r.2 ++ rs.2)
  | .blockE stmts =>
    let rs := visit_stmt_list_mut a stmts
    (.blockE rs.1, rs.2)
  | .pathE segs => (.pathE segs, [])
  | .strLit s => (.strLit s, [])
  | .natLit n => (.natLit n, [])

/-- Elementwise visit of an expression list (call arguments, parsed
macro arguments), accumulating diagnostics in order. -/
def visit_expr_list_mut (a : DebugTryArgs) : ExprList → ExprList × List Diagnostic
  | .nil => (.nil, [])
  | .cons e es =>
    let r := visit_expr_mut a e
    let rs := visit_expr_list_mut a es
    (.cons r.1 rs.1, r.2 ++ rs.2)

/-- The overridden `visit_macro_mut`: for an allow-listed invocation,
reparse the token stream as a comma-separated expression list; on
success visit each argument and re-serialize, on failure push the
parser's error (`push_paser_error`) and leave the tokens unmodified.
Invocations not on the allow-list are left entirely untouched.  The
match on the token stream is the inlining of `parser.parse2` (see
`parse_terminated`; the lemma `visit_mac_mut_parse` below restates
this function through it). -/
def visit_mac_mut (a : DebugTryArgs) : Mac → Mac × List Diagnostic
  | .mk leadingColon segs tts =>
    if known_mac leadingColon segs then
      match tts with
      | .exprList tree =>
        let rs := visit_expr_list_mut a tree
        (.mk leadingColon segs (into_token_stream rs.1), rs.2)
      | .malformed sp msg =>
        (.mk leadingColon segs (.malformed sp msg), [⟨sp, msg⟩])
    else
      (.mk leadingColon segs tts, [])

/-- The overridden `visit_stmt_mut`: item statements are descended
into only when `nested` resolves to true; every other statement kind
takes the default traversal unconditionally. -/
def visit_stmt_mut (a : DebugTryArgs) : Stmt → Stmt × List Diagnostic
  | .itemS it =>
    if a.nested.getD false then
      let r := visit_item_mut a it
      (.itemS r.1, r.2)
    else
      (.itemS it, [])
  | .localNone => (.localNone, [])
  | .localInit init =>
    let r := visit_expr_mut a init
    (.localInit r.1, r.2)
  | .exprS e =>
    let r := visit_expr_mut a e
    (.exprS r.1, r.2)
  | .semiS e =>
    let r := visit_expr_mut a e
    (.semiS r.1, r.2)

/-- Elementwise visit of a statement list. -/
def visit_stmt_list_mut (a : DebugTryArgs) : StmtList → StmtList × List Diagnostic
  | .nil => (.nil, [])
  | .cons s ss =>
    let r := visit_stmt_mut a s
    let rs := visit_stmt_list_mut a ss
    (.cons r.1 rs.1, r.2 ++ rs.2)

/-- Default `visit_item_mut`: a nested function's body statements are
visited; other item kinds contain nothing the visitor rewrites. -/
def visit_item_mut (a : DebugTryArgs) : Item → Item × List Diagnostic
  | .fnI body =>
    let rs := visit_stmt_list_mut a body
    (.fnI rs.1, rs.2)
  | .otherI => (.otherI, [])

end

/-- Entry point of the walk, `visit_mut::visit_item_fn_mut(&mut
visitor, &mut input)`: the default traversal of a function visits its
body statements. -/
def visit_item_fn_mut (a : DebugTryArgs) (input : ItemFn) : ItemFn × List Diagnostic :=
  let rs := visit_stmt_list_mut a input.body
  (⟨rs.1⟩, rs.2)

/-- Mirrors `debug_try_inner`: run the visitor over the function; if
no diagnostics were pushed return the rewritten function, otherwise
return the accumulated diagnostics. -/
def debug_try_inner (args : DebugTryArgs) (input : ItemFn) :
    Except (List Diagnostic) ItemFn :=
  let rs := visit_item_fn_mut args input
  if rs.2 = [] then .ok rs.1 else .error rs.2

/-- Mirrors the attribute entry point `debug_try` at the parsed level:
resolve the options; on a resolver diagnostic emit it and return the
input unchanged; otherwise run `debug_try_inner`, and on engine
diagnostics emit them all and fall back to the unchanged input.  The
returned pair is (output tokens, emitted diagnostics). -/
def debug_try (args : List NestedMeta) (input : ItemFn) :
    ItemFn × List Diagnostic :=
  match DebugTryArgs.try_from args with
  | .error diag => (input, [diag])
  | .ok resolved =>
    match debug_try_inner resolved input with
    | .ok output => (output, [])
    | .error diags => (input, diags)

/-!
Syntactic measures used to state the claims: head-shape tests, the
count of `map_err`-wrapping constructs in a tree, the number of try
sites the traversal reaches, and the absence of allow-listed
invocations.
-/

/-- Head test: is the expression a closure? -/
def is_closure : Expr → Bool
  | .closure _ => true
  | _ => false

/-- Head test: is the expression list empty? -/
def is_nil_el : ExprList → Bool
  | .nil => true
  | _ => false

/-- Is the argument list a single closure argument? -/
def is_singleton_closure : ExprList → Bool
  | .cons arg rest => is_closure arg && is_nil_el rest
  | .nil => false

/-- A wrapping construct: a `map_err` method call whose sole argument
is a closure — the shape produced by `wrap_expr`. -/
def is_wrap : Expr → Bool
  | .methodCall _ method args => method == "map_err" && is_singleton_closure args
  | _ => false

mutual

/-- Number of wrapping constructs contained anywhere in an
expression. -/
def count_wraps_expr : Expr → Nat
  | .tryE _ e => count_wraps_expr e
  | .closure body => count_wraps_expr body
  | .macE m => count_wraps_mac m
  | .methodCall receiver method args =>
    (if is_wrap (.methodCall receiver method args) then 1 else 0)
      + count_wraps_expr receiver + count_wraps_expr_list args
  | .call f args => count_wraps_expr f + count_wraps_expr_list args
  | .blockE stmts => count_wraps_stmt_list stmts
  | .pathE _ => 0
  | .strLit _ => 0
  | .natLit _ => 0

/-- Wrapping constructs in an expression list. -/
def count_wraps_expr_list : ExprList → Nat
  | .nil => 0
  | .cons e es => count_wraps_expr e + count_wraps_expr_list es

/-- Wrapping constructs in a macro invocation's parsed tokens. -/
def count_wraps_mac : Mac → Nat
  | .mk _ _ tts => count_wraps_toks tts

/-- Wrapping constructs in a token stream. -/
def count_wraps_toks : Toks → Nat
  | .exprList es => count_wraps_expr_list es
  | .malformed _ _ => 0

/-- Wrapping constructs in a statement. -/
def count_wraps_stmt : Stmt → Nat
  | .itemS it => count_wraps_item it
  | .localNone => 0
  | .localInit e => count_wraps_expr e
  | .exprS e => count_wraps_expr e
  | .semiS e => count_wraps_expr e

/-- Wrapping constructs in a statement list. -/
def count_wraps_stmt_list : StmtList → Nat
  | .nil => 0
  | .cons s ss => count_wraps_stmt s + count_wraps_stmt_list ss

/-- Wrapping constructs in an item. -/
def count_wraps_item : Item → Nat
  | .fnI body => count_wraps_stmt_list body
  | .otherI => 0

end

/-- Wrapping constructs in a whole function. -/
def count_wraps_fn (f : ItemFn) : Nat := count_wraps_stmt_list f.body

mutual

/-- Number of error-propagation sites in traversal-reachable
positions of an expression, under options `a`: try sites inside
closures (when `nested` is off), inside item statements (when
`nested` is off), inside non-allow-listed invocations, or inside
unparseable token streams are not reached. -/
def reach_expr (a : DebugTryArgs) : Expr → Nat
  | .tryE _ e => 1 + reach_expr a e
  | .closure body => if a.nested.getD false then reach_expr a body else 0
  | .macE m => reach_mac a m
  | .methodCall receiver _ args => reach_expr a receiver + reach_expr_list a args
  | .call f args => reach_expr a f + reach_expr_list a args
  | .blockE stmts => reach_stmt_list a stmts
  | .pathE _ => 0
  | .strLit _ => 0
  | .natLit _ => 0

/-- Reachable try sites in an expression list. -/
def reach_expr_list (a : DebugTryArgs) : ExprList → Nat
  | .nil => 0
  | .cons e es => reach_expr a e + reach_expr_list a es

/-- Reachable try sites in a macro invocation. -/
def reach_mac (a : DebugTryArgs) : Mac → Nat
  | .mk leadingColon segs tts =>
    if known_mac leadingColon segs then reach_toks a tts else 0

/-- Reachable try sites in a token stream. -/
def reach_toks (a : DebugTryArgs) : Toks → Nat
  | .exprList es => reach_expr_list a es
  | .malformed _ _ => 0

/-- Reachable try sites in a statement. -/
def reach_stmt (a : DebugTryArgs) : Stmt → Nat
  | .itemS it => if a.nested.getD false then reach_item a it else 0
  | .localNone => 0
  | .localInit e => reach_expr a e
  | .exprS e => reach_expr a e
  | .semiS e => reach_expr a e

/-- Reachable try sites in a statement list. -/
def reach_stmt_list (a : DebugTryArgs) : StmtList → Nat
  | .nil => 0
  | .cons s ss => reach_stmt a s + reach_stmt_list a ss

/-- Reachable try sites in an item. -/
def reach_item (a : DebugTryArgs) : Item → Nat
  | .fnI body => reach_stmt_list a body
  | .otherI => 0

end

/-- Reachable try sites in a whole function. -/
def reach_fn (a : DebugTryArgs) (f : ItemFn) : Nat := reach_stmt_list a f.body

mutual

/-- Syntactic absence of allow-listed invocations anywhere in an
expression (including inside parsed token streams). -/
def no_known_mac_expr : Expr → Bool
  | .tryE _ e => no_known_mac_expr e
  | .closure body => no_known_mac_expr body
  | .macE m => no_known_mac_mac m
  | .methodCall receiver _ args =>
    no_known_mac_expr receiver && no_known_mac_expr_list args
  | .call f args => no_known_mac_expr f && no_known_mac_expr_list args
  | .blockE stmts => no_known_mac_stmt_list stmts
  | .pathE _ => true
  | .strLit _ => true
  | .natLit _ => true

/-- Absence of allow-listed invocations in an expression list. -/
def no_known_mac_expr_list : ExprList → Bool
  | .nil => true
  | .cons e es => no_known_mac_expr e && no_known_mac_expr_list es

/-- Absence of allow-listed invocations at and below a macro node. -/
def no_known_mac_mac : Mac → Bool
  | .mk leadingColon segs tts =>
    !known_mac leadingColon segs && no_known_mac_toks tts

/-- Absence of allow-listed invocations in a token stream. -/
def no_known_mac_toks : Toks → Bool
  | .exprList es => no_known_mac_expr_list es
  | .malformed _ _ => true

/-- Absence of allow-listed invocations in a statement. -/
def no_known_mac_stmt : Stmt → Bool
  | .itemS it => no_known_mac_item it
  | .localNone => true
  | .localInit e => no_known_mac_expr e
  | .exprS e => no_known_mac_expr e
  | .semiS e => no_known_mac_expr e

/-- Absence of allow-listed invocations in a statement list. -/
def no_known_mac_stmt_list : StmtList → Bool
  | .nil => true
  | .cons s ss => no_known_mac_stmt s && no_known_mac_stmt_list ss

/-- Absence of allow-listed invocations in an item. -/
def no_known_mac_item : Item → Bool
  | .fnI body => no_known_mac_stmt_list body
  | .otherI => true

end

/-- Absence of allow-listed invocations in a whole function. -/
def no_known_mac_fn (f : ItemFn) : Bool := no_known_mac_stmt_list f.body

/-- Denotational model of `Result::map_err` for the generated code,
with a write-to-stderr log: `map_err_log r f` applies `f` to the
error case only, collecting the lines `f` writes, and leaves the
success case untouched with an empty log. -/
def map_err_log {ε α : Type} (r : Except ε α) (f : ε → List String × ε) :
    List String × Except ε α :=
  match r with
  | .ok v => ([], .ok v)
  | .error e => ((f e).1, .error ((f e).2))

/-- Denotation of the generated closure `|err| { eprintln!(fmt, err);
err }`: write the single formatted line, return the error value
unchanged. -/
def err_closure_sem {ε : Type} (emit : ε → String) : ε → List String × ε :=
  fun err => ([emit err], err)

/-- Modelled from the spec: the diagnostic format string as the spec
words it, with `<line>` the 1-based line and `<column>` the 1-based
column of the question token.  `LineColumn` stores the host
compiler's 1-indexed line and 0-indexed column, so the 1-based column
is `column + 1`. -/
def spec_format_str (sp : SpanData) : String :=
  "Error propagated (" ++ sp.file ++ ":" ++ toString sp.start.line ++ ":"
    ++ toString (sp.start.column + 1) ++ "): \x7b\x7d"

/-- Span of the malformed token stream in the C3 fixtures. -/
def c3_mal_span : SpanData := ⟨"m.rs", 3, 5⟩

/-- Span of the question token in the C3 fixtures. -/
def c3_try_span : SpanData := ⟨"m.rs", 4, 9⟩

/-- C3 fixture: a function whose body is a `println!` invocation with
an unparseable argument list followed by a reachable `x?` site. -/
def c3_fn : ItemFn :=
  ⟨.cons (.semiS (.macE (.mk false ["println"]
      (.malformed c3_mal_span "unexpected token"))))
    (.cons (.semiS (.tryE c3_try_span (.pathE ["x"]))) .nil)⟩

/-- C3 fixture: a function with two allow-listed invocations whose
argument lists are both unparseable. -/
def c3_fn_two : ItemFn :=
  ⟨.cons (.semiS (.macE (.mk false ["println"]
      (.malformed c3_mal_span "unexpected token"))))
    (.cons (.semiS (.macE (.mk false ["writeln"]
      (.malformed c3_try_span "expected expression")))) .nil)⟩

/-- C4 fixture: a function whose body is one `eprintln!` invocation
with an unparseable argument list. -/
def c4_fn : ItemFn :=
  ⟨.cons (.semiS (.macE (.mk false ["eprintln"]
      (.malformed ⟨"w.rs", 7, 2⟩ "expected expression")))) .nil⟩

/-- C8 fixture: a function whose body is `f(x?)?;` — two
error-propagation sites, one nested inside the other. -/
def c8_fn : ItemFn :=
  ⟨.cons (.semiS (.tryE ⟨"n.rs", 5, 40⟩
      (.call (.pathE ["f"])
        (.cons (.tryE ⟨"n.rs", 5, 20⟩ (.pathE ["x"])) .nil)))) .nil⟩

/-- C9 fixture: a function whose body is one closure containing a try
site — unreachable with `nested` off — and no allow-listed
invocation. -/
def c9_fn : ItemFn :=
  ⟨.cons (.semiS (.closure (.tryE ⟨"p.rs", 9, 14⟩ (.pathE ["x"])))) .nil⟩

/-!
Theorems: the parser-interface restatement of the macro visit, the
structural helper lemmas, and the claim theorems.
-/

/-- The macro visit expressed through the parser interface, exactly as
the source writes it: `match parser.parse2(i.tts.clone())`. -/
theorem visit_mac_mut_parse (a : DebugTryArgs) (leadingColon : Bool)
    (segs : List String) (tts : Toks) :
    visit_mac_mut a (.mk leadingColon segs tts) =
      if known_mac leadingColon segs then
        match parse_terminated tts with
        | .ok tree =>
          (.mk leadingColon segs (into_token_stream (visit_expr_list_mut a tree).1),
            (visit_expr_list_mut a tree).2)
        | .error (sp, msg) => (.mk leadingColon segs tts, [⟨sp, msg⟩])
      else (.mk leadingColon segs tts, []) := by
  cases tts <;> rfl

/-!
Helper lemmas: the visitor never changes the head constructor of a
node, the generated wrapping adds exactly one wrap construct, and a
walk that meets no try site and no allow-listed invocation is the
identity.
-/

/-- The visitor preserves closure-headedness of an expression. -/
theorem is_closure_visit (a : DebugTryArgs) (e : Expr) :
    is_closure (visit_expr_mut a e).1 = is_closure e := by
  by_cases h : a.nested.getD false <;>
    cases e <;> simp [visit_expr_mut, is_closure, h]

/-- The visitor preserves emptiness of an expression list. -/
theorem is_nil_el_visit (a : DebugTryArgs) (es : ExprList) :
    is_nil_el (visit_expr_list_mut a es).1 = is_nil_el es := by
  cases es <;> simp [visit_expr_list_mut, is_nil_el]

/-- The visitor preserves the single-closure-argument shape. -/
theorem is_singleton_closure_visit (a : DebugTryArgs) (args : ExprList) :
    is_singleton_closure (visit_expr_list_mut a args).1 =
      is_singleton_closure args := by
  cases args with
  | nil => rfl
  | cons e es =>
    simp [visit_expr_list_mut, is_singleton_closure, is_closure_visit,
      is_nil_el_visit]

/-- The visitor preserves wrap-shape of a method call. -/
theorem is_wrap_visit (a : DebugTryArgs) (receiver : Expr) (method : String)
    (args : ExprList) :
    is_wrap (.methodCall (visit_expr_mut a receiver).1 method
        (visit_expr_list_mut a args).1) =
      is_wrap (.methodCall receiver method args) := by
  simp [is_wrap, is_singleton_closure_visit]

/-- The generated error-printing closure contains no wrap construct. -/
theorem count_wraps_err_closure (fmt : String) :
    count_wraps_expr (err_closure fmt) = 0 := rfl

/-- The generated wrapping contains exactly one wrap construct more
than the expression it wraps. -/
theorem count_wraps_wrap_expr (sp : SpanData) (x : Expr) :
    count_wraps_expr (wrap_expr sp x) = 1 + count_wraps_expr x := by
  simp [wrap_expr, count_wraps_expr, count_wraps_expr_list, is_wrap,
    is_singleton_closure, is_closure, is_nil_el, err_closure,
    count_wraps_mac, count_wraps_toks, count_wraps_stmt_list,
    count_wraps_stmt]

mutual

/-- The walk adds one wrap construct per reachable try site of an
expression. -/
theorem count_visit_expr (a : DebugTryArgs) (e : Expr) :
    count_wraps_expr (visit_expr_mut a e).1 =
      count_wraps_expr e + reach_expr a e := by
  cases e with
  | tryE sp e1 =>
    have ih := count_visit_expr a e1
    have h1 : (visit_expr_mut a (.tryE sp e1)).1
        = .tryE sp (wrap_expr sp (visit_expr_mut a e1).1) := rfl
    have h2 : count_wraps_expr (.tryE sp (wrap_expr sp (visit_expr_mut a e1).1))
        = 1 + count_wraps_expr (visit_expr_mut a e1).1 :=
      count_wraps_wrap_expr sp (visit_expr_mut a e1).1
    have h3 : count_wraps_expr (Expr.tryE sp e1) = count_wraps_expr e1 := rfl
    have h4 : reach_expr a (Expr.tryE sp e1) = 1 + reach_expr a e1 := rfl
    rw [h1, h2, ih, h3, h4]
    omega
  | closure body =>
    have ih := count_visit_expr a body
    cases h : a.nested.getD false <;>
      simp [visit_expr_mut, count_wraps_expr, reach_expr, h, ih]
  | macE m =>
    have ih := count_visit_mac a m
    simp [visit_expr_mut, count_wraps_expr, reach_expr, ih]
  | methodCall receiver method args =>
    have ih1 := count_visit_expr a receiver
    have ih2 := count_visit_expr_list a args
    have h1 : (visit_expr_mut a (.methodCall receiver method args)).1
        = .methodCall (visit_expr_mut a receiver).1 method
            (visit_expr_list_mut a args).1 := rfl
    have h2 : ∀ r m ar, count_wraps_expr (Expr.methodCall r m ar)
        = (if is_wrap (.methodCall r m ar) then 1 else 0)
          + count_wraps_expr r + count_wraps_expr_list ar := fun _ _ _ => rfl
    have h3 : reach_expr a (.methodCall receiver method args)
        = reach_expr a receiver + reach_expr_list a args := rfl
    rw [h1, h2, h2, is_wrap_visit, ih1, ih2, h3]
    omega
  | call f args =>
    have ih1 := count_visit_expr a f
    have ih2 := count_visit_expr_list a args
    simp [visit_expr_mut, count_wraps_expr, reach_expr, ih1, ih2]
    omega
  | blockE stmts =>
    have ih := count_visit_stmt_list a stmts
    simp [visit_expr_mut, count_wraps_expr, reach_expr, ih]
  | pathE segs => simp [visit_expr_mut, count_wraps_expr, reach_expr]
  | strLit s => simp [visit_expr_mut, count_wraps_expr, reach_expr]
  | natLit n => simp [visit_expr_mut, count_wraps_expr, reach_expr]

/-- The walk adds one wrap construct per reachable try site of an
expression list. -/
theorem count_visit_expr_list (a : DebugTryArgs) (es : ExprList) :
    count_wraps_expr_list (visit_expr_list_mut a es).1 =
      count_wraps_expr_list es + reach_expr_list a es := by
  cases es with
  | nil => simp [visit_expr_list_mut, count_wraps_expr_list, reach_expr_list]
  | cons e es1 =>
    have ih1 := count_visit_expr a e
    have ih2 := count_visit_expr_list a es1
    simp [visit_expr_list_mut, count_wraps_expr_list, reach_expr_list,
      ih1, ih2]
    omega

/-- The walk adds one wrap construct per reachable try site of a
macro invocation. -/
theorem count_visit_mac (a : DebugTryArgs) (m : Mac) :
    count_wraps_mac (visit_mac_mut a m).1 =
      count_wraps_mac m + reach_mac a m := by
  cases m with
  | mk leadingColon segs tts =>
    cases tts with
    | exprList es =>
      have ih := count_visit_expr_list a es
      cases h : known_mac leadingColon segs <;>
        simp [visit_mac_mut, count_wraps_mac, count_wraps_toks, reach_mac,
          reach_toks, into_token_stream, h, ih]
    | malformed sp msg =>
      cases h : known_mac leadingColon segs <;>
        simp [visit_mac_mut, count_wraps_mac, count_wraps_toks, reach_mac,
          reach_toks, h]

/-- The walk adds one wrap construct per reachable try site of a
statement. -/
theorem count_visit_stmt (a : DebugTryArgs) (s : Stmt) :
    count_wraps_stmt (visit_stmt_mut a s).1 =
      count_wraps_stmt s + reach_stmt a s := by
  cases s with
  | itemS it =>
    have ih := count_visit_item a it
    cases h : a.nested.getD false <;>
      simp [visit_stmt_mut, count_wraps_stmt, reach_stmt, h, ih]
  | localNone => simp [visit_stmt_mut, count_wraps_stmt, reach_stmt]
  | localInit e =>
    have ih := count_visit_expr a e
    simp [visit_stmt_mut, count_wraps_stmt, reach_stmt, ih]
  | exprS e =>
    have ih := count_visit_expr a e
    simp [visit_stmt_mut, count_wraps_stmt, reach_stmt, ih]
  | semiS e =>
    have ih := count_visit_expr a e
    simp [visit_stmt_mut, count_wraps_stmt, reach_stmt, ih]

/-- The walk adds one wrap construct per reachable try site of a
statement list. -/
theorem count_visit_stmt_list (a : DebugTryArgs) (ss : StmtList) :
    count_wraps_stmt_list (visit_stmt_list_mut a ss).1 =
      count_wraps_stmt_list ss + reach_stmt_list a ss := by
  cases ss with
  | nil => simp [visit_stmt_list_mut, count_wraps_stmt_list, reach_stmt_list]
  | cons s ss1 =>
    have ih1 := count_visit_stmt a s
    have ih2 := count_visit_stmt_list a ss1
    simp [visit_stmt_list_mut, count_wraps_stmt_list, reach_stmt_list,
      ih1, ih2]
    omega

/-- The walk adds one wrap construct per reachable try site of an
item. -/
theorem count_visit_item (a : DebugTryArgs) (it : Item) :
    count_wraps_item (visit_item_mut a it).1 =
      count_wraps_item it + reach_item a it := by
  cases it with
  | fnI body =>
    have ih := count_visit_stmt_list a body
    simp [visit_item_mut, count_wraps_item, reach_item, ih]
  | otherI => simp [visit_item_mut, count_wraps_item, reach_item]

end

/-- Whole-function version of the counting lemma. -/
theorem count_visit_fn (a : DebugTryArgs) (f : ItemFn) :
    count_wraps_fn (visit_item_fn_mut a f).1 =
      count_wraps_fn f + reach_fn a f := by
  simpa [visit_item_fn_mut, count_wraps_fn, reach_fn] using
    count_visit_stmt_list a f.body

/-- A macro invocation whose path is not allow-listed is left
entirely untouched with no diagnostic. -/
theorem visit_mac_mut_unknown (a : DebugTryArgs) (leadingColon : Bool)
    (segs : List String) (tts : Toks)
    (h : known_mac leadingColon segs = false) :
    visit_mac_mut a (.mk leadingColon segs tts) =
      (.mk leadingColon segs tts, []) := by
  rw [visit_mac_mut_parse]
  simp [h]

/-- Identity of the walk on a non-allow-listed invocation. -/
theorem ident_visit_mac (a : DebugTryArgs) (m : Mac)
    (hmac : no_known_mac_mac m = true) (hreach : reach_mac a m = 0) :
    visit_mac_mut a m = (m, []) := by
  cases m with
  | mk leadingColon segs tts =>
    apply visit_mac_mut_unknown
    simp only [no_known_mac_mac, Bool.and_eq_true, Bool.not_eq_true'] at hmac
    exact hmac.1

mutual

/-- A walk that meets no reachable try site and no allow-listed
invocation leaves an expression unchanged and pushes no
diagnostics. -/
theorem ident_visit_expr (a : DebugTryArgs) (e : Expr)
    (hmac : no_known_mac_expr e = true) (hreach : reach_expr a e = 0) :
    visit_expr_mut a e = (e, []) := by
  cases e with
  | tryE sp e1 =>
    exact absurd hreach (by simp [reach_expr])
  | closure body =>
    cases h : a.nested.getD false with
    | false => simp [visit_expr_mut, h]
    | true =>
      have h1 : reach_expr a body = 0 := by
        simpa [reach_expr, h] using hreach
      have ih := ident_visit_expr a body (by simpa [no_known_mac_expr] using hmac) h1
      simp [visit_expr_mut, h, ih]
  | macE m =>
    have ih := ident_visit_mac a m (by simpa [no_known_mac_expr] using hmac)
      (by simpa [reach_expr] using hreach)
    simp [visit_expr_mut, ih]
  | methodCall receiver method args =>
    simp only [no_known_mac_expr, Bool.and_eq_true] at hmac
    simp only [reach_expr] at hreach
    have ih1 := ident_visit_expr a receiver hmac.1 (by omega)
    have ih2 := ident_visit_expr_list a args hmac.2 (by omega)
    simp [visit_expr_mut, ih1, ih2]
  | call f args =>
    simp only [no_known_mac_expr, Bool.and_eq_true] at hmac
    simp only [reach_expr] at hreach
    have ih1 := ident_visit_expr a f hmac.1 (by omega)
    have ih2 := ident_visit_expr_list a args hmac.2 (by omega)
    simp [visit_expr_mut, ih1, ih2]
  | blockE stmts =>
    have ih := ident_visit_stmt_list a stmts
      (by simpa [no_known_mac_expr] using hmac)
      (by simpa [reach_expr] using hreach)
    simp [visit_expr_mut, ih]
  | pathE segs => rfl
  | strLit s => rfl
  | natLit n => rfl

/-- Identity of the walk on an expression list containing no
reachable try site and no allow-listed invocation. -/
theorem ident_visit_expr_list (a : DebugTryArgs) (es : ExprList)
    (hmac : no_known_mac_expr_list es = true)
    (hreach : reach_expr_list a es = 0) :
    visit_expr_list_mut a es = (es, []) := by
  cases es with
  | nil => rfl
  | cons e es1 =>
    simp only [no_known_mac_expr_list, Bool.and_eq_true] at hmac
    simp only [reach_expr_list] at hreach
    have ih1 := ident_visit_expr a e hmac.1 (by omega)
    have ih2 := ident_visit_expr_list a es1 hmac.2 (by omega)
    simp [visit_expr_list_mut, ih1, ih2]

/-- Identity of the walk on a statement containing no reachable try
site and no allow-listed invocation. -/
theorem ident_visit_stmt (a : DebugTryArgs) (s : Stmt)
    (hmac : no_known_mac_stmt s = true) (hreach : reach_stmt a s = 0) :
    visit_stmt_mut a s = (s, []) := by
  cases s with
  | itemS it =>
    cases h : a.nested.getD false with
    | false => simp [visit_stmt_mut, h]
    | true =>
      have ih := ident_visit_item a it
        (by simpa [no_known_mac_stmt] using hmac)
        (by simpa [reach_stmt, h] using hreach)
      simp [visit_stmt_mut, h, ih]
  | localNone => rfl
  | localInit e =>
    have ih := ident_visit_expr a e (by simpa [no_known_mac_stmt] using hmac)
      (by simpa [reach_stmt] using hreach)
    simp [visit_stmt_mut, ih]
  | exprS e =>
    have ih := ident_visit_expr a e (by simpa [no_known_mac_stmt] using hmac)
      (by simpa [reach_stmt] using hreach)
    simp [visit_stmt_mut, ih]
  | semiS e =>
    have ih := ident_visit_expr a e (by simpa [no_known_mac_stmt] using hmac)
      (by simpa [reach_stmt] using hreach)
    simp [visit_stmt_mut, ih]

/-- Identity of the walk on a statement list containing no reachable
try site and no allow-listed invocation. -/
theorem ident_visit_stmt_list (a : DebugTryArgs) (ss : StmtList)
    (hmac : no_known_mac_stmt_list ss = true)
    (hreach : reach_stmt_list a ss = 0) :
    visit_stmt_list_mut a ss = (ss, []) := by
  cases ss with
  | nil => rfl
  | cons s ss1 =>
    simp only [no_known_mac_stmt_list, Bool.and_eq_true] at hmac
    simp only [reach_stmt_list] at hreach
    have ih1 := ident_visit_stmt a s hmac.1 (by omega)
    have ih2 := ident_visit_stmt_list a ss1 hmac.2 (by omega)
    simp [visit_stmt_list_mut, ih1, ih2]

/-- Identity of the walk on an item containing no reachable try site
and no allow-listed invocation. -/
theorem ident_visit_item (a : DebugTryArgs) (it : Item)
    (hmac : no_known_mac_item it = true) (hreach : reach_item a it = 0) :
    visit_item_mut a it = (it, []) := by
  cases it with
  | fnI body =>
    have ih := ident_visit_stmt_list a body
      (by simpa [no_known_mac_item] using hmac)
      (by simpa [reach_item] using hreach)
    simp [visit_item_mut, ih]
  | otherI => rfl

end

/-- Whole-function identity: a function with no reachable try site
and no allow-listed invocation passes through the walk unchanged. -/
theorem ident_visit_fn (a : DebugTryArgs) (f : ItemFn)
    (hmac : no_known_mac_fn f = true) (hreach : reach_fn a f = 0) :
    visit_item_fn_mut a f = (f, []) := by
  have h := ident_visit_stmt_list a f.body hmac hreach
  simp [visit_item_fn_mut, h]

/-- The attribute entry point never exposes a rewritten tree when any
diagnostic is emitted: a non-empty diagnostic list comes with the
original input as output. -/
theorem debug_try_fallback (args : List NestedMeta) (input : ItemFn)
    (h : (debug_try args input).2 ≠ []) :
    (debug_try args input).1 = input := by
  unfold debug_try at h ⊢
  cases h1 : DebugTryArgs.try_from args with
  | error d => simp [h1]
  | ok resolved =>
    simp only [h1] at h ⊢
    cases h2 : debug_try_inner resolved input with
    | ok output => simp [h2] at h
    | error diags => simp [h2]

/-- The resolver's fold returns its first error unchanged however the
argument list is extended on the right. -/
theorem try_from_go_append (l extra : List NestedMeta) (r : DebugTryArgs)
    (d : Diagnostic) (h : DebugTryArgs.try_from_go l r = .error d) :
    DebugTryArgs.try_from_go (l ++ extra) r = .error d := by
  induction l generalizing r with
  | nil => simp [DebugTryArgs.try_from_go] at h
  | cons a l ih =>
    cases a with
    | other sp => simpa [DebugTryArgs.try_from_go] using h
    | nameValue ident identSpan lit =>
      by_cases hk : ident = "nested"
      · cases hs : r.nested.isSome with
        | true => simpa [DebugTryArgs.try_from_go, hk, hs] using h
        | false =>
          cases lit with
          | boolL v spv =>
            have h2 := by simpa [DebugTryArgs.try_from_go, hk, hs] using h
            simpa [DebugTryArgs.try_from_go, hk, hs] using ih _ h2
          | strL s spv => simpa [DebugTryArgs.try_from_go, hk, hs] using h
          | intL n spv => simpa [DebugTryArgs.try_from_go, hk, hs] using h
      · simpa [DebugTryArgs.try_from_go, hk] using h

/-- C1: at every error-propagation site `E?` reached by the traversal,
the engine first applies the same visitor to `E` recursively (sites
nested inside `E` are rewritten from the inside out), then replaces
the inner expression by the rewritten `E'` wrapped as
`E'.map_err(|err| { print the diagnostic line; err })`, keeping the
question token; the generated closure returns the error value
unchanged, and the wrapped expression's success/error outcome equals
the original's, so an enclosing propagation site still composes. -/
theorem claim_c1 (a : DebugTryArgs) (sp : SpanData) (e : Expr) :
    visit_expr_mut a (.tryE sp e)
      = (.tryE sp (wrap_expr sp (visit_expr_mut a e).1), (visit_expr_mut a e).2)
    ∧ (∀ (ε : Type) (emit : ε → String) (err : ε),
        err_closure_sem emit err = ([emit err], err))
    ∧ (∀ (ε α : Type) (emit : ε → String) (r : Except ε α),
        (map_err_log r (err_closure_sem emit)).2 = r) := by
  refine ⟨rfl, fun ε emit err => rfl, fun ε α emit r => ?_⟩
  cases r <;> rfl

/-- C2 counterexample: at the span with 1-indexed line 10 and
host-reported column 30, the engine embeds the string
`Error propagated (file.rs:10:30): {}`, while the claim's 1-based
column would require `...:10:31): {}`; the two differ. -/
theorem claim_c2_counterexample :
    (visit_expr_mut { nested := none }
        (.tryE ⟨"file.rs", 10, 30⟩ (.pathE ["x"]))).1
      = .tryE ⟨"file.rs", 10, 30⟩ (wrap_expr ⟨"file.rs", 10, 30⟩ (.pathE ["x"]))
    ∧ format_str ⟨"file.rs", 10, 30⟩ = "Error propagated (file.rs:10:30): \x7b\x7d"
    ∧ spec_format_str ⟨"file.rs", 10, 30⟩ ≠ format_str ⟨"file.rs", 10, 30⟩ := by
  refine ⟨rfl, rfl, ?_⟩
  decide

/-- C2 amended: the diagnostic format string embedded at every
rewritten site is exactly `Error propagated (<file>:<line>:<column>):
{}` where `<line>` is the 1-based line and `<column>` is the 0-based
column of the question token as reported by the host compiler's span
API. -/
theorem claim_c2_amended (a : DebugTryArgs) (sp : SpanData) (e : Expr) :
    (visit_expr_mut a (.tryE sp e)).1
      = .tryE sp (.methodCall (visit_expr_mut a e).1 "map_err"
          (.cons (err_closure (format_str sp)) .nil))
    ∧ format_str sp = "Error propagated (" ++ sp.file ++ ":"
        ++ toString sp.start.line ++ ":" ++ toString sp.start.column
        ++ "): \x7b\x7d" :=
  ⟨rfl, rfl⟩

/-- C3 counterexample: on `c3_fn` a diagnostic is raised, so the
published output is the original function: the reachable `x?` site
(one site, zero wraps in the input) is NOT rewritten in the final
output, contradicting the claim that the rest of the function is
still rewritten normally there. -/
theorem claim_c3_counterexample :
    debug_try [] c3_fn = (c3_fn, [⟨c3_mal_span, "unexpected token"⟩])
    ∧ reach_fn { nested := none } c3_fn = 1
    ∧ count_wraps_fn c3_fn = 0 :=
  ⟨rfl, rfl, rfl⟩

/-- C3 amended: when an allow-listed invocation's argument tokens do
not parse, the walk records a diagnostic carrying the unparseable
span and the parser's message, leaves that invocation's arguments
unmodified, continues over the remaining statements and accumulates
all such diagnostics rather than aborting at the first; however,
since any accumulated diagnostic makes the entry point fall back, the
final output is then the original function unchanged (the rest of the
function is rewritten only in the discarded intermediate tree). -/
theorem claim_c3_amended (a : DebugTryArgs) (leadingColon : Bool)
    (segs : List String) (sp : SpanData) (msg : String) (s : Stmt)
    (ss : StmtList) (h : known_mac leadingColon segs = true) :
    visit_mac_mut a (.mk leadingColon segs (.malformed sp msg))
        = (.mk leadingColon segs (.malformed sp msg), [⟨sp, msg⟩])
    ∧ visit_stmt_list_mut a (.cons s ss)
        = (.cons (visit_stmt_mut a s).1 (visit_stmt_list_mut a ss).1,
            (visit_stmt_mut a s).2 ++ (visit_stmt_list_mut a ss).2)
    ∧ (visit_item_fn_mut { nested := none } c3_fn_two).2
        = [⟨c3_mal_span, "unexpected token"⟩,
           ⟨c3_try_span, "expected expression"⟩]
    ∧ ∀ (args : List NestedMeta) (input : ItemFn),
        (debug_try args input).2 ≠ [] → (debug_try args input).1 = input := by
  refine ⟨?_, rfl, rfl, debug_try_fallback⟩
  rw [visit_mac_mut_parse]
  simp [h, parse_terminated]

/-- C3 amended, witness at `println!` with a malformed argument list. -/
theorem claim_c3_amended_witness :
    visit_mac_mut { nested := none }
        (.mk false ["println"] (.malformed c3_mal_span "unexpected token"))
      = (.mk false ["println"] (.malformed c3_mal_span "unexpected token"),
          [⟨c3_mal_span, "unexpected token"⟩]) :=
  (claim_c3_amended { nested := none } false ["println"] c3_mal_span
    "unexpected token" .localNone .nil rfl).1

/-- C4: whenever any diagnostic is raised — by the options resolver or
by the engine's macro-argument reparser — the output equals the
original input function unchanged, and all accumulated diagnostics
are emitted: a resolver error is emitted alone with the input
unchanged, and a non-empty visitor diagnostic list is emitted in full
with the input unchanged. -/
theorem claim_c4 (args : List NestedMeta) (input : ItemFn) :
    ((debug_try args input).2 ≠ [] → (debug_try args input).1 = input)
    ∧ (∀ d, DebugTryArgs.try_from args = .error d →
        debug_try args input = (input, [d]))
    ∧ (∀ resolved, DebugTryArgs.try_from args = .ok resolved →
        (visit_item_fn_mut resolved input).2 ≠ [] →
        debug_try args input = (input, (visit_item_fn_mut resolved input).2)) := by
  refine ⟨debug_try_fallback args input, ?_, ?_⟩
  · intro d hd
    simp [debug_try, hd]
  · intro resolved hok hne
    simp [debug_try, hok, debug_try_inner, hne]

/-- C4 witness: a resolver diagnostic (bare-flag argument) and an
engine diagnostic (malformed `eprintln!` arguments) both fall back to
the unchanged input with the diagnostics emitted. -/
theorem claim_c4_witness :
    debug_try [.other ⟨"w.rs", 1, 1⟩] c4_fn
        = (c4_fn, [⟨⟨"w.rs", 1, 1⟩, "Expected key-value pair"⟩])
    ∧ debug_try [] c4_fn
        = (c4_fn, [⟨⟨"w.rs", 7, 2⟩, "expected expression"⟩]) :=
  ⟨(claim_c4 [.other ⟨"w.rs", 1, 1⟩] c4_fn).2.1 _ rfl,
   (claim_c4 [] c4_fn).2.2 { nested := none } rfl (by decide)⟩

/-- C5: with `nested` false or absent the traversal does not descend
into closure bodies or item statements (they are returned untouched
with no diagnostics), while with `nested` true it descends into both;
non-item statements are always fully visited regardless of
`nested`. -/
theorem claim_c5 (a : DebugTryArgs) (b : Expr) (it : Item) (e : Expr) :
    (a.nested.getD false = false →
      visit_expr_mut a (.closure b) = (.closure b, [])
      ∧ visit_stmt_mut a (.itemS it) = (.itemS it, []))
    ∧ (a.nested.getD false = true →
      visit_expr_mut a (.closure b)
          = (.closure (visit_expr_mut a b).1, (visit_expr_mut a b).2)
      ∧ visit_stmt_mut a (.itemS it)
          = (.itemS (visit_item_mut a it).1, (visit_item_mut a it).2))
    ∧ visit_stmt_mut a (.exprS e)
        = (.exprS (visit_expr_mut a e).1, (visit_expr_mut a e).2)
    ∧ visit_stmt_mut a (.semiS e)
        = (.semiS (visit_expr_mut a e).1, (visit_expr_mut a e).2)
    ∧ visit_stmt_mut a (.localInit e)
        = (.localInit (visit_expr_mut a e).1, (visit_expr_mut a e).2)
    ∧ visit_stmt_mut a .localNone = (.localNone, []) := by
  refine ⟨fun h => ⟨?_, ?_⟩, fun h => ⟨?_, ?_⟩, rfl, rfl, rfl, rfl⟩ <;>
    simp [visit_expr_mut, visit_stmt_mut, h]

/-- C5 witness: with `nested` absent a closure containing a try site
is untouched; with `nested = true` the site inside the closure is
rewritten; an expression statement is visited either way. -/
theorem claim_c5_witness :
    visit_expr_mut { nested := none }
        (.closure (.tryE c3_try_span (.pathE ["x"])))
      = (.closure (.tryE c3_try_span (.pathE ["x"])), [])
    ∧ visit_expr_mut { nested := some true }
        (.closure (.tryE c3_try_span (.pathE ["x"])))
      = (.closure (.tryE c3_try_span
          (wrap_expr c3_try_span (.pathE ["x"]))), []) := by
  constructor
  · exact ((claim_c5 { nested := none } (.tryE c3_try_span (.pathE ["x"]))
      .otherI (.pathE ["y"])).1 rfl).1
  · exact ((claim_c5 { nested := some true } (.tryE c3_try_span (.pathE ["x"]))
      .otherI (.pathE ["y"])).2.1 rfl).1

/-- C6: the allow-list is exactly the five names `println`,
`eprintln`, `format`, `write`, `writeln`, matched as a bare
single-segment path with no leading colon; every invocation whose
path does not match is left entirely untouched — same path, same
token stream (whatever try sites it contains), and no diagnostic. -/
theorem claim_c6 (a : DebugTryArgs) (leadingColon : Bool)
    (segs : List String) (tts : Toks) :
    KNOWN = ["println", "eprintln", "format", "write", "writeln"]
    ∧ (known_mac leadingColon segs = true ↔
        (leadingColon = false ∧
          (segs = ["println"] ∨ segs = ["eprintln"] ∨ segs = ["format"]
            ∨ segs = ["write"] ∨ segs = ["writeln"])))
    ∧ (known_mac leadingColon segs = false →
        visit_mac_mut a (.mk leadingColon segs tts)
          = (.mk leadingColon segs tts, [])) := by
  refine ⟨rfl, ?_, visit_mac_mut_unknown a leadingColon segs tts⟩
  simp [known_mac, KNOWN, is_ident, Bool.and_eq_true, Bool.not_eq_true']
  tauto

/-- C6 witness: a qualified-path invocation of `format` containing a
try site in its argument tokens is left untouched with no
diagnostic. -/
theorem claim_c6_witness :
    visit_mac_mut { nested := none }
        (.mk false ["std", "format"]
          (.exprList (.cons (.tryE ⟨"f.rs", 2, 2⟩ (.pathE ["x"])) .nil)))
      = (.mk false ["std", "format"]
          (.exprList (.cons (.tryE ⟨"f.rs", 2, 2⟩ (.pathE ["x"])) .nil)), []) :=
  (claim_c6 { nested := none } false ["std", "format"]
    (.exprList (.cons (.tryE ⟨"f.rs", 2, 2⟩ (.pathE ["x"])) .nil))).2.2 rfl

/-- C7: the options resolver maps an empty list to the default record
(interpreted as `nested` off); `nested = true` to `nested =
Some(true)`; a non-boolean value for `nested` to an
`ExpectedBooleanLiteral` diagnostic at the value; a second `nested`
entry to a `DuplicateArgument` diagnostic at the second key (whatever
follows); any other key to `UnknownArgument` at the key; a non
key/value entry to `ExpectedKeyValuePair`; and it short-circuits: the
first error is returned whatever comes after. -/
theorem claim_c7 :
    (DebugTryArgs.try_from [] = .ok { nested := none }
      ∧ ({ nested := none } : DebugTryArgs).nested.getD false = false)
    ∧ (∀ sp sv, DebugTryArgs.try_from [.nameValue "nested" sp (.boolL true sv)]
        = .ok { nested := some true })
    ∧ (∀ sp s sv, DebugTryArgs.try_from [.nameValue "nested" sp (.strL s sv)]
        = .error ⟨sv, "Expected boolean literal"⟩)
    ∧ (∀ sp n sv, DebugTryArgs.try_from [.nameValue "nested" sp (.intL n sv)]
        = .error ⟨sv, "Expected boolean literal"⟩)
    ∧ (∀ sp1 b1 sv1 sp2 l2 rest,
        DebugTryArgs.try_from (.nameValue "nested" sp1 (.boolL b1 sv1)
            :: .nameValue "nested" sp2 l2 :: rest)
          = .error ⟨sp2, "Duplicate argument"⟩)
    ∧ (∀ k sp lit rest, k ≠ "nested" →
        DebugTryArgs.try_from (.nameValue k sp lit :: rest)
          = .error ⟨sp, "Unknown argument"⟩)
    ∧ (∀ sp rest, DebugTryArgs.try_from (.other sp :: rest)
        = .error ⟨sp, "Expected key-value pair"⟩)
    ∧ (∀ l extra d, DebugTryArgs.try_from l = .error d →
        DebugTryArgs.try_from (l ++ extra) = .error d) := by
  refine ⟨⟨rfl, rfl⟩, fun sp sv => rfl, fun sp s sv => rfl, fun sp n sv => rfl,
    fun sp1 b1 sv1 sp2 l2 rest => rfl, ?_, fun sp rest => rfl,
    fun l extra d h => try_from_go_append l extra {} d h⟩
  intro k sp lit rest hk
  simp [DebugTryArgs.try_from, DebugTryArgs.try_from_go, hk]

/-- C7 witness: the unrecognized key `color` yields `UnknownArgument`
at the key, and an error survives extension of the argument list. -/
theorem claim_c7_witness :
    DebugTryArgs.try_from
        [.nameValue "color" ⟨"a.rs", 1, 12⟩ (.boolL true ⟨"a.rs", 1, 20⟩)]
      = .error ⟨⟨"a.rs", 1, 12⟩, "Unknown argument"⟩
    ∧ DebugTryArgs.try_from
        ([.other ⟨"a.rs", 1, 12⟩] ++ [.nameValue "nested" ⟨"a.rs", 1, 18⟩
          (.boolL true ⟨"a.rs", 1, 27⟩)])
      = .error ⟨⟨"a.rs", 1, 12⟩, "Expected key-value pair"⟩ :=
  ⟨claim_c7.2.2.2.2.2.1 "color" ⟨"a.rs", 1, 12⟩ (.boolL true ⟨"a.rs", 1, 20⟩)
      [] (by decide),
   claim_c7.2.2.2.2.2.2.2 [.other ⟨"a.rs", 1, 12⟩]
      [.nameValue "nested" ⟨"a.rs", 1, 18⟩ (.boolL true ⟨"a.rs", 1, 27⟩)]
      ⟨⟨"a.rs", 1, 12⟩, "Expected key-value pair"⟩ rfl⟩

/-- C8: for a function containing `N` error-propagation sites in
traversal-reachable positions (and no pre-existing wrapping
construct), the rewritten function contains exactly `N` wrapping
constructs — each site wrapped exactly once, never zero times and
never doubly — and each wrapping preserves the propagated value: the
wrapped computation's outcome (success or error, with its value)
equals the original's. -/
theorem claim_c8 (a : DebugTryArgs) (f : ItemFn)
    (h : count_wraps_fn f = 0) :
    count_wraps_fn (visit_item_fn_mut a f).1 = reach_fn a f
    ∧ ∀ (ε α : Type) (emit : ε → String) (r : Except ε α),
        (map_err_log r (err_closure_sem emit)).2 = r := by
  constructor
  · have h2 := count_visit_fn a f
    omega
  · intro ε α emit r
    cases r <;> rfl

/-- C8 witness: `f(x?)?;` has two reachable sites and no wrap; the
rewritten function has exactly two wraps. -/
theorem claim_c8_witness :
    count_wraps_fn c8_fn = 0
    ∧ reach_fn { nested := none } c8_fn = 2
    ∧ count_wraps_fn (visit_item_fn_mut { nested := none } c8_fn).1 = 2 :=
  ⟨rfl, rfl, ((claim_c8 { nested := none } c8_fn rfl).1).trans rfl⟩

/-- C9: rewriting a function that contains zero traversal-reachable
error-propagation sites and zero allow-listed macro invocations
returns a tree structurally equal to the input, with no diagnostics:
the transformation is the identity on such functions. -/
theorem claim_c9 (a : DebugTryArgs) (f : ItemFn)
    (hreach : reach_fn a f = 0) (hmac : no_known_mac_fn f = true) :
    visit_item_fn_mut a f = (f, []) ∧ debug_try_inner a f = .ok f := by
  have h := ident_visit_fn a f hmac hreach
  exact ⟨h, by simp [debug_try_inner, h]⟩

/-- C9 witness: with `nested` off, a function whose only try site sits
inside a closure is returned unchanged. -/
theorem claim_c9_witness :
    visit_item_fn_mut { nested := none } c9_fn = (c9_fn, [])
    ∧ debug_try_inner { nested := none } c9_fn = .ok c9_fn :=
  claim_c9 { nested := none } c9_fn rfl rfl

/-- C10: the duplicate-key check runs before the boolean-literal type
check: for `nested = true, nested = "yes"` the resolver reports
`DuplicateArgument` at the second key, not `ExpectedBooleanLiteral`
at its value. -/
theorem claim_c10 :
    DebugTryArgs.try_from
        [.nameValue "nested" ⟨"a.rs", 1, 12⟩ (.boolL true ⟨"a.rs", 1, 21⟩),
         .nameValue "nested" ⟨"a.rs", 1, 27⟩ (.strL "yes" ⟨"a.rs", 1, 36⟩)]
      = .error ⟨⟨"a.rs", 1, 27⟩, "Duplicate argument"⟩ := rfl
